import Mathlib

set_option linter.unusedVariables false

/-!
Shallow embedding of the CRM GraphQL mutation layer (crm/schema.py).

The repository exposes four mutations over a relational data model of
customers, products and orders: CreateCustomer, BulkCreateCustomers,
CreateProduct and CreateOrder.  The mutation bodies live in crm/schema.py
and are translated here function by function.  The Django model layer
(crm/models.py) is not part of the sources; where its behaviour matters
(field validation in full_clean, the unique email constraint, the derived
total_amount of an order, the default order date) the definitions below are
modelled from the specification and say so in their doc comments.

Machine-level conventions: database rows are Lean structures, the database
is explicit state threaded through every operation, Decimal prices are
rationals, and primary keys are naturals handed out by per-table counters,
mirroring the autoincrement key columns of the relational store.
-/

/-- Modelled from the spec (crm/models.py is not in the sources): a Customer
row with identity, name, unique email and an optional phone. -/
structure Customer where
  id : Nat
  name : String
  email : String
  phone : Option String
  deriving Repr, DecidableEq

/-- Modelled from the spec (crm/models.py is not in the sources): a Product
row with identity, name, positive Decimal price and non-negative stock. -/
structure Product where
  id : Nat
  name : String
  price : Rat
  stock : Int
  deriving Repr, DecidableEq

/-- Modelled from the spec (crm/models.py is not in the sources): an Order
row referencing one customer and a set of products, with the derived
total_amount and an order date defaulting to creation time. -/
structure Order where
  id : Nat
  customerId : Nat
  productIds : List Nat
  totalAmount : Rat
  orderDate : Nat
  deriving Repr, DecidableEq

/-- The relational store: one table per entity plus the autoincrement
counters of the primary key columns and the creation-time clock. -/
structure DB where
  customers : List Customer
  products : List Product
  orders : List Order
  nextCustomerId : Nat
  nextProductId : Nat
  nextOrderId : Nat
  now : Nat
  deriving Repr, DecidableEq

/-- The empty database; Django primary keys start at 1. -/
def initDB : DB :=
  { customers := [], products := [], orders := [],
    nextCustomerId := 1, nextProductId := 1, nextOrderId := 1, now := 0 }

/-- Python `not name.strip()`: the string becomes falsy after stripping
exactly when every character is whitespace. -/
def isBlank (s : String) : Bool :=
  s.data.all (fun c => c.isWhitespace)

/-- Modelled from the spec: the email format validator of the Customer model
(crm/models.py is not in the sources; the spec only says the email format is
validated, so a simple local-part@domain shape stands in for it). -/
def validEmail (s : String) : Bool :=
  (s.data.count '@' == 1) &&
  !(s.data.takeWhile (fun c => c != '@')).isEmpty &&
  !(s.data.reverse.takeWhile (fun c => c != '@')).isEmpty

/-- Modelled from the spec: the phone format validator of the Customer model
(crm/models.py is not in the sources; the spec only says the optional phone
is format-validated). -/
def validPhone (s : String) : Bool :=
  !s.data.isEmpty && s.data.all (fun c => c.isDigit || c == '+' || c == '-')

/-- An optional phone passes validation when absent or well formed. -/
def phoneOk : Option String → Bool
  | none => true
  | some s => validPhone s

/-- Modelled from the spec: Customer.full_clean (crm/models.py is not in the
sources).  Django collects field-keyed validation errors: a blank name, a
malformed email, a violation of the unique email constraint (validate_unique
runs inside full_clean), and a malformed phone.  Returns the message_dict as
a list of (field, message) pairs; an empty list means validation passed. -/
def fullCleanCustomer (db : DB) (name email : String) (phone : Option String) :
    List (String × String) :=
  (if name = "" then [("name", "This field cannot be blank.")] else []) ++
  (if !validEmail email then [("email", "Enter a valid email address.")]
   else if db.customers.any (fun c => c.email == email) then
     [("email", "Customer with this email already exists.")]
   else []) ++
  (match phone with
   | none => []
   | some p => if !validPhone p then [("phone", "Invalid phone number.")] else [])

/-- Django ValidationError: either built from a plain message string or from
a dict of field-keyed messages. -/
inductive VError where
  | plain (msg : String)
  | dict (entries : List (String × String))
  deriving Repr, DecidableEq

/-- Django semantics of ValidationError.message_dict: it is only defined for
a dict-built error; on a plain-message error the property raises
AttributeError, modelled here as `none`. -/
def VError.messageDict : VError → Option (List (String × String))
  | .plain _ => none
  | .dict entries => some entries

/-- A Python exception escaping a mutation instead of being returned as
data. -/
inductive PyExc where
  | attributeError
  deriving Repr, DecidableEq

deriving instance DecidableEq for Except

/-- CustomErrorType of crm/schema.py: a (field, message) pair. -/
structure CustomErr where
  field : String
  message : String
  deriving Repr, DecidableEq

/-- Output fields of the CreateCustomer mutation. -/
structure CreateCustomerResult where
  customer : Option Customer
  message : Option String
  errors : Option (List CustomErr)
  deriving Repr, DecidableEq

/-- customer.save(): append the row and advance the key counter. -/
def saveCustomer (db : DB) (c : Customer) : DB :=
  { db with customers := db.customers ++ [c],
            nextCustomerId := db.nextCustomerId + 1 }

/-- Customer(name=name, email=email, phone=phone): the unsaved row, keyed
by the id that save will assign. -/
def mkCustomer (db : DB) (name email : String) (phone : Option String) : Customer :=
  { id := db.nextCustomerId, name := name, email := email, phone := phone }

/-- The try-block of CreateCustomer.mutate: the explicit blank-name check
raises a plain-message ValidationError, then full_clean raises a dict-built
one, then save persists the row. -/
def createCustomerBody (db : DB) (name email : String) (phone : Option String) :
    Except VError (Customer × DB) :=
  if isBlank name then
    .error (.plain "Name cannot be empty.")
  else if (fullCleanCustomer db name email phone).isEmpty then
    .ok (mkCustomer db name email phone, saveCustomer db (mkCustomer db name email phone))
  else
    .error (.dict (fullCleanCustomer db name email phone))

/-- CreateCustomer.mutate of crm/schema.py.  The ValidationError handler
reads e.message_dict; on a plain-message error that read raises
AttributeError, which no sibling handler catches, so it escapes the
mutation.  The generic Exception handler (field "general") is unreachable
in this sequential model because full_clean already rejects duplicate
emails before save can hit an integrity error. -/
def createCustomer (db : DB) (name email : String) (phone : Option String) :
    Except PyExc CreateCustomerResult × DB :=
  match createCustomerBody db name email phone with
  | .ok (c, db') =>
      (.ok { customer := some c, message := some "Customer created successfully.",
             errors := none }, db')
  | .error e =>
      match e.messageDict with
      | some entries =>
          (.ok { customer := none, message := none,
                 errors := some (entries.map (fun kv => { field := kv.1, message := kv.2 })) }, db)
      | none => (.error .attributeError, db)

/-- CustomerInput of crm/schema.py. -/
structure CustomerInput where
  name : String
  email : String
  phone : Option String
  deriving Repr, DecidableEq

/-- Output fields of the BulkCreateCustomers mutation. -/
structure BulkResult where
  customers : List Customer
  errors : List String
  deriving Repr, DecidableEq

/-- The Customer row a bulk entry would create, keyed by the next id. -/
def newCustomer (db : DB) (d : CustomerInput) : Customer :=
  mkCustomer db d.name d.email d.phone

/-- Rendering of a message_dict inside an f-string (the Python dict repr is
abbreviated to field-colon-message pairs; no claim depends on the exact
shape beyond the fields and messages appearing). -/
def dictString (entries : List (String × String)) : String :=
  String.intercalate "; " (entries.map (fun kv => kv.1 ++ ": " ++ kv.2))

/-- The per-item error string of BulkCreateCustomers.mutate: the loop index
i is 0-based and the message tags the 1-based index i+1 and the email. -/
def bulkErrorString (i : Nat) (email msg : String) : String :=
  "Error on customer #" ++ toString (i + 1) ++ " (" ++ email ++ "): " ++ msg

/-- The enumerate loop of BulkCreateCustomers.mutate: each entry is
validated against the database as left by the earlier entries; a failing
entry contributes an error string and leaves the database untouched; a
succeeding entry is saved; the loop never aborts. -/
def bulkGo (db : DB) (i : Nat) : List CustomerInput → List Customer × List String × DB
  | [] => ([], [], db)
  | d :: rest =>
    if (fullCleanCustomer db d.name d.email d.phone).isEmpty then
      let c := newCustomer db d
      let r := bulkGo (saveCustomer db c) (i + 1) rest
      (c :: r.1, r.2.1, r.2.2)
    else
      let r := bulkGo db (i + 1) rest
      (r.1,
       bulkErrorString i d.email (dictString (fullCleanCustomer db d.name d.email d.phone)) :: r.2.1,
       r.2.2)

/-- BulkCreateCustomers.mutate of crm/schema.py. -/
def bulkCreateCustomers (db : DB) (data : List CustomerInput) : BulkResult × DB :=
  let r := bulkGo db 0 data
  ({ customers := r.1, errors := r.2.1 }, r.2.2)

/-- Output fields of the CreateProduct mutation. -/
structure CreateProductResult where
  product : Option Product
  errors : Option (List CustomErr)
  deriving Repr, DecidableEq

/-- product.save(): append the row and advance the key counter. -/
def saveProduct (db : DB) (p : Product) : DB :=
  { db with products := db.products ++ [p],
            nextProductId := db.nextProductId + 1 }

/-- Modelled from the spec: Product.full_clean (crm/models.py is not in the
sources).  Field validation of the Product model: a blank name, the positive
price validator and the non-negative stock validator; both numeric checks
are also made explicitly by the mutation before full_clean runs. -/
def fullCleanProduct (name : String) (price : Rat) (stock : Int) :
    List (String × String) :=
  (if name = "" then [("name", "This field cannot be blank.")] else []) ++
  (if price ≤ 0 then [("price", "Price must be positive.")] else []) ++
  (if stock < 0 then [("stock", "Stock cannot be negative.")] else [])

/-- CreateProduct.mutate of crm/schema.py: the explicit price and stock
guards raise dict-built ValidationErrors, then full_clean runs, then save;
the single ValidationError handler turns message_dict into (field, message)
pairs. -/
def createProduct (db : DB) (name : String) (price : Rat) (stock : Int) :
    CreateProductResult × DB :=
  if price ≤ 0 then
    ({ product := none, errors := some [{ field := "price", message := "Price must be positive." }] }, db)
  else if stock < 0 then
    ({ product := none, errors := some [{ field := "stock", message := "Stock cannot be negative." }] }, db)
  else if (fullCleanProduct name price stock).isEmpty then
    ({ product := some { id := db.nextProductId, name := name, price := price, stock := stock },
       errors := none },
     saveProduct db { id := db.nextProductId, name := name, price := price, stock := stock })
  else
    ({ product := none,
       errors := some ((fullCleanProduct name price stock).map (fun kv => { field := kv.1, message := kv.2 })) }, db)

/-- The ValidationErrors CreateOrder.mutate can raise, kept structured so
that theorems can speak about the reported ids; render turns each into the
message string of the source. -/
inductive OrderVErr where
  | noProducts
  | invalidCustomer (cid : Nat)
  | invalidProducts (missing : List Nat)
  deriving Repr, DecidableEq

/-- The message strings of the three raise sites of CreateOrder.mutate. -/
def OrderVErr.render : OrderVErr → String
  | .noProducts => "At least one product must be selected."
  | .invalidCustomer cid => "Invalid customer ID: " ++ toString cid
  | .invalidProducts missing =>
      "Invalid product IDs: " ++ String.intercalate ", " (missing.map toString)

/-- Output fields of the CreateOrder mutation. -/
structure CreateOrderResult where
  order : Option Order
  errors : Option (List CustomErr)
  deriving Repr, DecidableEq

/-- Product.objects.filter(pk__in=product_ids): every table row whose key
occurs in the request list, each row once, in table order. -/
def resolveProducts (ps : List Product) (ids : List Nat) : List Product :=
  ps.filter (fun p => ids.contains p.id)

/-- Order.save() appends the row and advances the key counter.  The
recomputation of total_amount at save time is part of the Order model and
is already folded into the totalAmount field of the row being saved. -/
def saveOrder (db : DB) (o : Order) : DB :=
  { db with orders := db.orders ++ [o],
            nextOrderId := db.nextOrderId + 1 }

/-- The missing ids reported by CreateOrder.mutate: the set difference of
the requested ids and the resolved ids.  Python builds it as an unordered
set; the model fixes first-occurrence order, and the theorems about it
speak only of membership. -/
def missingIds (db : DB) (ids : List Nat) : List Nat :=
  (ids.filter (fun i =>
    !((resolveProducts db.products ids).map (fun p => p.id)).contains i)).dedup

/-- The order row CreateOrder persists on success: keyed by the next id,
referencing the found customer and the resolved product set, its
total_amount the recomputed sum and its date the creation-time default. -/
def mkOrder (db : DB) (customer : Customer) (ids : List Nat) : Order :=
  { id := db.nextOrderId, customerId := customer.id,
    productIds := (resolveProducts db.products ids).map (fun p => p.id),
    totalAmount := ((resolveProducts db.products ids).map (fun p => p.price)).sum,
    orderDate := db.now }

/-- The try-block of CreateOrder.mutate: reject an empty id list, an
unresolvable customer id, and a count mismatch between the resolved
products and the id list (reporting the missing ids); then create the
order, attach the resolved products and save.  Modelled from the spec where
the Order model fills in: save computes total_amount as the sum of the
attached products' prices and the order date defaults to creation time
(crm/models.py is not in the sources). -/
def createOrderV (db : DB) (customerId : Nat) (productIds : List Nat) :
    Except OrderVErr (Order × DB) :=
  if productIds.isEmpty then
    .error .noProducts
  else
    match db.customers.find? (fun c => c.id == customerId) with
    | none => .error (.invalidCustomer customerId)
    | some customer =>
      if (resolveProducts db.products productIds).length ≠ productIds.length then
        .error (.invalidProducts (missingIds db productIds))
      else
        .ok (mkOrder db customer productIds, saveOrder db (mkOrder db customer productIds))

/-- CreateOrder.mutate of crm/schema.py: the order_date argument is accepted
but never used by the body; the ValidationError handler returns a single
(field "validation", str(e)) pair and, the whole body being wrapped in
transaction.atomic, leaves the database untouched on failure. -/
def createOrder (db : DB) (customerId : Nat) (productIds : List Nat)
    (orderDate : Option Nat) : CreateOrderResult × DB :=
  match createOrderV db customerId productIds with
  | .ok (o, db') => ({ order := some o, errors := none }, db')
  | .error e =>
      ({ order := none, errors := some [{ field := "validation", message := e.render }] }, db)

/-- One client call of any of the four mutations. -/
inductive Act where
  | createCustomer (name email : String) (phone : Option String)
  | bulkCreateCustomers (data : List CustomerInput)
  | createProduct (name : String) (price : Rat) (stock : Int)
  | createOrder (customerId : Nat) (productIds : List Nat) (orderDate : Option Nat)

/-- The database state a call leaves behind, whether it succeeded, returned
errors as data, or escaped with a Python exception. -/
def applyAct (db : DB) : Act → DB
  | .createCustomer n e p => (createCustomer db n e p).2
  | .bulkCreateCustomers data => (bulkCreateCustomers db data).2
  | .createProduct n pr s => (createProduct db n pr s).2
  | .createOrder c ps d => (createOrder db c ps d).2

/-- Run a sequence of client calls. -/
def runActs (db : DB) (acts : List Act) : DB :=
  acts.foldl applyAct db

/-- The derived total of an order: the sum of the prices of the products
the database currently holds under the order's product ids. -/
def orderTotal (ps : List Product) (pids : List Nat) : Rat :=
  ((resolveProducts ps pids).map (fun p => p.price)).sum

/-- The price the database holds under a product id (0 when absent; only
used under a hypothesis that the id resolves). -/
def priceOf (db : DB) (i : Nat) : Rat :=
  match db.products.find? (fun p => p.id == i) with
  | some p => p.price
  | none => 0

/-- Referential integrity of orders: an existing customer and a non-empty
set of existing products. -/
def refsOk (db : DB) : Prop :=
  ∀ o ∈ db.orders,
    (∃ c ∈ db.customers, c.id = o.customerId) ∧
    o.productIds ≠ [] ∧
    ∀ i ∈ o.productIds, ∃ p ∈ db.products, p.id = i

/-- Every persisted total_amount is the derived recomputation over the
current product table, never an independently supplied value. -/
def totalsOk (db : DB) : Prop :=
  ∀ o ∈ db.orders, o.totalAmount = orderTotal db.products o.productIds

/-- Customer emails are globally unique. -/
def emailsOk (db : DB) : Prop :=
  db.customers.Pairwise (fun a b => a.email ≠ b.email)

/-- Every persisted product has a positive price and non-negative stock. -/
def productValuesOk (db : DB) : Prop :=
  ∀ p ∈ db.products, 0 < p.price ∧ 0 ≤ p.stock

/-- The data-model invariants claimed by the spec. -/
def Invariants (db : DB) : Prop :=
  refsOk db ∧ totalsOk db ∧ emailsOk db ∧ productValuesOk db

/-- Bookkeeping facts of the relational store that the preservation proof
threads along: primary keys are unique and below their counters, and orders
only reference keys already handed out. -/
def idsOk (db : DB) : Prop :=
  (db.products.map (fun p => p.id)).Nodup ∧
  (∀ p ∈ db.products, p.id < db.nextProductId) ∧
  (∀ o ∈ db.orders, ∀ i ∈ o.productIds, i < db.nextProductId)

/-- The well-formed database states: bookkeeping plus the claimed
invariants. -/
def WF (db : DB) : Prop :=
  idsOk db ∧ Invariants db

lemma contains_eq_true_iff {l : List Nat} {a : Nat} : l.contains a = true ↔ a ∈ l := by
  simp

lemma contains_eq_decide_mem (l : List Nat) (a : Nat) : l.contains a = decide (a ∈ l) := by
  by_cases h : a ∈ l <;> simp [h]

lemma mem_resolveProducts {ps : List Product} {ids : List Nat} {p : Product} :
    p ∈ resolveProducts ps ids ↔ p ∈ ps ∧ p.id ∈ ids := by
  simp [resolveProducts, List.mem_filter]

lemma resolveProducts_sublist (ps : List Product) (ids : List Nat) :
    (resolveProducts ps ids).Sublist ps :=
  List.filter_sublist ps

lemma orderTotal_append_fresh {ps : List Product} {p : Product} {pids : List Nat}
    (h : p.id ∉ pids) : orderTotal (ps ++ [p]) pids = orderTotal ps pids := by
  have hp : pids.contains p.id = false := by
    simpa using h
  simp [orderTotal, resolveProducts, List.filter_append, List.filter_cons, h]

lemma resolve_self_ids {ps : List Product} (hnd : (ps.map (fun p => p.id)).Nodup)
    (ids : List Nat) :
    resolveProducts ps ((resolveProducts ps ids).map (fun p => p.id)) =
      resolveProducts ps ids := by
  apply List.filter_congr
  intro p hp
  rw [contains_eq_decide_mem, contains_eq_decide_mem]
  apply decide_eq_decide.mpr
  constructor
  · intro hmem
    rcases List.mem_map.mp hmem with ⟨q, hq, hqi⟩
    rcases mem_resolveProducts.mp hq with ⟨hqps, hqid⟩
    have hqp : q = p := List.inj_on_of_nodup_map hnd hqps hp hqi
    exact hqp ▸ hqid
  · intro hid
    exact List.mem_map.mpr ⟨p, mem_resolveProducts.mpr ⟨hp, hid⟩, rfl⟩

lemma resolve_map_id_nodup {ps : List Product} (hnd : (ps.map (fun p => p.id)).Nodup)
    (ids : List Nat) : ((resolveProducts ps ids).map (fun p => p.id)).Nodup :=
  List.Nodup.sublist (List.Sublist.map _ (resolveProducts_sublist ps ids)) hnd

lemma resolve_map_id_perm {ps : List Product} {ids : List Nat}
    (hnd : (ps.map (fun p => p.id)).Nodup) (hids : ids.Nodup)
    (hall : ∀ i ∈ ids, ∃ p ∈ ps, p.id = i) :
    ((resolveProducts ps ids).map (fun p => p.id)).Perm ids := by
  rw [List.perm_ext_iff_of_nodup (resolve_map_id_nodup hnd ids) hids]
  intro a
  constructor
  · intro hmem
    rcases List.mem_map.mp hmem with ⟨q, hq, hqi⟩
    exact hqi ▸ (mem_resolveProducts.mp hq).2
  · intro ha
    rcases hall a ha with ⟨p, hp, hpi⟩
    exact List.mem_map.mpr ⟨p, mem_resolveProducts.mpr ⟨hp, hpi ▸ ha⟩, hpi⟩

lemma resolve_length_eq {ps : List Product} {ids : List Nat}
    (hnd : (ps.map (fun p => p.id)).Nodup) (hids : ids.Nodup)
    (hall : ∀ i ∈ ids, ∃ p ∈ ps, p.id = i) :
    (resolveProducts ps ids).length = ids.length := by
  have h := (resolve_map_id_perm hnd hids hall).length_eq
  simpa using h

lemma resolve_length_lt_of_missing {ps : List Product} {ids : List Nat} {x : Nat}
    (hnd : (ps.map (fun p => p.id)).Nodup) (hx : x ∈ ids)
    (hmiss : ∀ p ∈ ps, p.id ≠ x) :
    (resolveProducts ps ids).length < ids.length := by
  have hsub : ((resolveProducts ps ids).map (fun p => p.id)) ⊆ ids.erase x := by
    intro a hmem
    rcases List.mem_map.mp hmem with ⟨q, hq, hqi⟩
    rcases mem_resolveProducts.mp hq with ⟨hqps, hqid⟩
    have hne : a ≠ x := fun h => hmiss q hqps (hqi.trans h)
    exact (List.mem_erase_of_ne hne).mpr (hqi ▸ hqid)
  have hle : ((resolveProducts ps ids).map (fun p => p.id)).length ≤ (ids.erase x).length :=
    (List.subperm_of_subset (resolve_map_id_nodup hnd ids) hsub).length_le
  have herase : (ids.erase x).length = ids.length - 1 := List.length_erase_of_mem hx
  have hpos : 0 < ids.length := List.length_pos.mpr (List.ne_nil_of_mem hx)
  have : (resolveProducts ps ids).length ≤ ids.length - 1 := by
    simpa [herase] using hle
  omega

lemma resolve_length_lt_of_dup {ps : List Product} {ids : List Nat}
    (hnd : (ps.map (fun p => p.id)).Nodup)
    (hall : ∀ i ∈ ids, ∃ p ∈ ps, p.id = i) (hdup : ¬ ids.Nodup) :
    (resolveProducts ps ids).length < ids.length := by
  have hsub : ((resolveProducts ps ids).map (fun p => p.id)) ⊆ ids.dedup := by
    intro a hmem
    rcases List.mem_map.mp hmem with ⟨q, hq, hqi⟩
    exact List.mem_dedup.mpr (hqi ▸ (mem_resolveProducts.mp hq).2)
  have hle : ((resolveProducts ps ids).map (fun p => p.id)).length ≤ ids.dedup.length :=
    (List.subperm_of_subset (resolve_map_id_nodup hnd ids) hsub).length_le
  have hlt : ids.dedup.length < ids.length := by
    have hsl := List.dedup_sublist ids
    have hlename := hsl.length_le
    rcases Nat.lt_or_ge ids.dedup.length ids.length with h | h
    · exact h
    · exfalso
      have heq : ids.dedup.length = ids.length := Nat.le_antisymm hlename h
      have := hsl.eq_of_length heq
      exact hdup (this ▸ List.nodup_dedup ids)
  have := List.length_map (resolveProducts ps ids) (fun p => p.id)
  omega

lemma priceOf_eq {db : DB} {p : Product} (hnd : (db.products.map (fun p => p.id)).Nodup)
    (hp : p ∈ db.products) : priceOf db p.id = p.price := by
  rcases hq : db.products.find? (fun q => q.id == p.id) with _ | q
  · exfalso
    have : (db.products.find? (fun q => q.id == p.id)).isSome = true :=
      List.find?_isSome.mpr ⟨p, hp, by simp⟩
    rw [hq] at this
    simp at this
  · have hqmem : q ∈ db.products := List.mem_of_find?_eq_some hq
    have hqid : q.id = p.id := by
      have := List.find?_some hq
      simpa using this
    have hqp : q = p := List.inj_on_of_nodup_map hnd hqmem hp hqid
    simp [priceOf, hq, hqp]

lemma resolve_sum_prices {db : DB} {ids : List Nat}
    (hnd : (db.products.map (fun p => p.id)).Nodup) (hids : ids.Nodup)
    (hall : ∀ i ∈ ids, ∃ p ∈ db.products, p.id = i) :
    ((resolveProducts db.products ids).map (fun p => p.price)).sum =
      (ids.map (priceOf db)).sum := by
  have hperm := (resolve_map_id_perm hnd hids hall).map (priceOf db)
  have hsum := hperm.sum_eq
  rw [List.map_map] at hsum
  have hcong :
      (resolveProducts db.products ids).map ((priceOf db) ∘ (fun p => p.id)) =
        (resolveProducts db.products ids).map (fun p => p.price) := by
    apply List.map_congr_left
    intro p hp
    exact priceOf_eq hnd (mem_resolveProducts.mp hp).1
  rw [hcong] at hsum
  exact hsum

lemma fullClean_email_not_taken {db : DB} {name email : String} {phone : Option String}
    (h : fullCleanCustomer db name email phone = []) :
    ∀ c ∈ db.customers, c.email ≠ email := by
  rcases List.append_eq_nil.mp h with ⟨h12, h3⟩
  rcases List.append_eq_nil.mp h12 with ⟨h1, h2⟩
  by_cases hv : validEmail email
  · by_cases ha : db.customers.any (fun c => c.email == email)
    · simp [hv, ha] at h2
    · intro c hc hce
      have hbeq : (fun c => c.email == email) c = true := by
        show (c.email == email) = true
        simp [hce]
      exact ha (List.any_eq_true.mpr ⟨c, hc, hbeq⟩)
  · simp [hv] at h2

lemma createCustomerBody_ok {db : DB} {name email : String} {phone : Option String}
    {c : Customer} {db2 : DB}
    (h : createCustomerBody db name email phone = .ok (c, db2)) :
    c = mkCustomer db name email phone ∧
    db2 = saveCustomer db c ∧
    fullCleanCustomer db name email phone = [] := by
  unfold createCustomerBody at h
  split at h
  · exact absurd h (by simp)
  · split at h
    · rename_i hempty
      have hclean : fullCleanCustomer db name email phone = [] :=
        List.isEmpty_iff.mp hempty
      injection h with h'
      injection h' with hc hdb
      exact ⟨hc.symm, by rw [← hc, ← hdb], hclean⟩
    · exact absurd h (by simp)

lemma WF_saveCustomer {db : DB} {name email : String} {phone : Option String}
    (hwf : WF db) (hclean : fullCleanCustomer db name email phone = []) :
    WF (saveCustomer db (mkCustomer db name email phone)) := by
  obtain ⟨⟨hnd, hpb, hob⟩, hrefs, htot, hem, hpv⟩ := hwf
  refine ⟨⟨hnd, hpb, hob⟩, ?_, htot, ?_, hpv⟩
  · intro o ho
    rcases hrefs o ho with ⟨⟨c, hc, hcid⟩, hne, hall⟩
    exact ⟨⟨c, List.mem_append_left _ hc, hcid⟩, hne, hall⟩
  · show (db.customers ++ [mkCustomer db name email phone]).Pairwise (fun a b => a.email ≠ b.email)
    rw [List.pairwise_append]
    refine ⟨hem, List.pairwise_singleton _ _, ?_⟩
    intro a ha b hb
    have hb' : b = mkCustomer db name email phone := by
      simpa using hb
    rw [hb']
    exact fullClean_email_not_taken hclean a ha

lemma WF_createCustomer {db : DB} (hwf : WF db) (name email : String) (phone : Option String) :
    WF (createCustomer db name email phone).2 := by
  rcases h : createCustomerBody db name email phone with e | ⟨c, db2⟩
  · rcases hm : e.messageDict with _ | entries <;> simp [createCustomer, h, hm] <;> exact hwf
  · obtain ⟨hc, hdb2, hclean⟩ := createCustomerBody_ok h
    have : (createCustomer db name email phone).2 = db2 := by
      simp [createCustomer, h]
    rw [this, hdb2, hc]
    exact WF_saveCustomer hwf hclean

lemma WF_bulkGo {data : List CustomerInput} : ∀ {db : DB} {i : Nat}, WF db →
    WF (bulkGo db i data).2.2 := by
  induction data with
  | nil => intro db i hwf; simpa [bulkGo] using hwf
  | cons d rest ih =>
    intro db i hwf
    by_cases hclean : (fullCleanCustomer db d.name d.email d.phone).isEmpty
    · have hnil : fullCleanCustomer db d.name d.email d.phone = [] :=
        List.isEmpty_iff.mp hclean
      have hwf' : WF (saveCustomer db (newCustomer db d)) := by
        have := WF_saveCustomer hwf hnil
        simpa [newCustomer] using this
      simpa [bulkGo, hclean] using ih hwf'
    · simpa [bulkGo, hclean] using ih hwf

lemma WF_bulkCreateCustomers {db : DB} (hwf : WF db) (data : List CustomerInput) :
    WF (bulkCreateCustomers db data).2 := by
  simpa [bulkCreateCustomers] using WF_bulkGo hwf

lemma WF_saveProduct {db : DB} {name : String} {price : Rat} {stock : Int}
    (hwf : WF db) (hprice : 0 < price) (hstock : 0 ≤ stock) :
    WF (saveProduct db { id := db.nextProductId, name := name, price := price, stock := stock }) := by
  obtain ⟨⟨hnd, hpb, hob⟩, hrefs, htot, hem, hpv⟩ := hwf
  refine ⟨⟨?_, ?_, ?_⟩, ?_, ?_, hem, ?_⟩
  · show ((db.products ++ [({ id := db.nextProductId, name := name, price := price, stock := stock } : Product)]).map (fun p => p.id)).Nodup
    rw [List.map_append, List.nodup_append]
    refine ⟨hnd, by simp, ?_⟩
    intro a ha hb
    have hb' : a = db.nextProductId := by simpa using hb
    rcases List.mem_map.mp ha with ⟨p, hp, hpi⟩
    have := hpb p hp
    omega
  · intro p hp
    rcases List.mem_append.mp hp with hp' | hp'
    · have := hpb p hp'
      show p.id < db.nextProductId + 1
      omega
    · have hpeq : p = ({ id := db.nextProductId, name := name, price := price, stock := stock } : Product) := by
        simpa using hp'
      show p.id < db.nextProductId + 1
      rw [hpeq]
      exact Nat.lt_succ_self _
  · intro o ho i hi
    have := hob o ho i hi
    show i < db.nextProductId + 1
    omega
  · intro o ho
    rcases hrefs o ho with ⟨hc, hne, hall⟩
    refine ⟨hc, hne, ?_⟩
    intro i hi
    rcases hall i hi with ⟨p, hp, hpi⟩
    exact ⟨p, List.mem_append_left _ hp, hpi⟩
  · intro o ho
    have htoto := htot o ho
    have hfresh : ({ id := db.nextProductId, name := name, price := price, stock := stock } : Product).id ∉ o.productIds := by
      intro hmem
      exact absurd (hob o ho _ hmem) (lt_irrefl _)
    show o.totalAmount = orderTotal (db.products ++ [({ id := db.nextProductId, name := name, price := price, stock := stock } : Product)]) o.productIds
    rw [orderTotal_append_fresh hfresh]
    exact htoto
  · intro p hp
    rcases List.mem_append.mp hp with hp' | hp'
    · exact hpv p hp'
    · have hpeq : p = ({ id := db.nextProductId, name := name, price := price, stock := stock } : Product) := by
        simpa using hp'
      rw [hpeq]
      exact ⟨hprice, hstock⟩

lemma WF_createProduct {db : DB} (hwf : WF db) (name : String) (price : Rat) (stock : Int) :
    WF (createProduct db name price stock).2 := by
  unfold createProduct
  split
  · exact hwf
  · split
    · exact hwf
    · split
      · rename_i hprice hstock hempty
        exact WF_saveProduct hwf (lt_of_not_le hprice) (by omega)
      · exact hwf

lemma createOrderV_ok {db : DB} {cid : Nat} {ids : List Nat} {o : Order} {db2 : DB}
    (h : createOrderV db cid ids = .ok (o, db2)) :
    (∃ c ∈ db.customers, c.id = o.customerId) ∧
    o.id = db.nextOrderId ∧
    o.productIds = (resolveProducts db.products ids).map (fun p => p.id) ∧
    o.totalAmount = ((resolveProducts db.products ids).map (fun p => p.price)).sum ∧
    o.orderDate = db.now ∧
    db2 = saveOrder db o ∧
    (resolveProducts db.products ids).length = ids.length ∧
    ids ≠ [] := by
  unfold createOrderV at h
  split at h
  · exact absurd h (by simp)
  · rename_i hne
    split at h
    · exact absurd h (by simp)
    · rename_i customer hf
      split at h
      · exact absurd h (by simp)
      · rename_i hlen
        injection h with h'
        injection h' with ho hdb
        have hid : ids ≠ [] := by
          intro hnil
          rw [hnil] at hne
          simp at hne
        refine ⟨⟨customer, List.mem_of_find?_eq_some hf, ?_⟩, ?_, ?_, ?_, ?_, ?_, ?_, hid⟩
        · rw [← ho]
          rfl
        · rw [← ho]
          rfl
        · rw [← ho]
          rfl
        · rw [← ho]
          rfl
        · rw [← ho]
          rfl
        · rw [← hdb, ← ho]
        · omega

lemma createOrder_err_db {db : DB} {cid : Nat} {ids : List Nat} {d : Option Nat} {e : OrderVErr}
    (h : createOrderV db cid ids = .error e) :
    createOrder db cid ids d =
      ({ order := none, errors := some [{ field := "validation", message := e.render }] }, db) := by
  simp [createOrder, h]

lemma createOrder_ok_pair {db : DB} {cid : Nat} {ids : List Nat} {d : Option Nat}
    {o : Order} {db2 : DB} (h : createOrderV db cid ids = .ok (o, db2)) :
    createOrder db cid ids d = ({ order := some o, errors := none }, db2) := by
  simp [createOrder, h]

lemma WF_saveOrder {db : DB} {o : Order}
    (hwf : WF db)
    (hc : ∃ c ∈ db.customers, c.id = o.customerId)
    (href : ∀ i ∈ o.productIds, ∃ p ∈ db.products, p.id = i)
    (hnonempty : o.productIds ≠ [])
    (htotal : o.totalAmount = orderTotal db.products o.productIds) :
    WF (saveOrder db o) := by
  obtain ⟨⟨hnd, hpb, hob⟩, hrefs, htot, hem, hpv⟩ := hwf
  refine ⟨⟨hnd, hpb, ?_⟩, ?_, ?_, hem, hpv⟩
  · intro o' ho' i hi
    rcases List.mem_append.mp ho' with ho'' | ho''
    · exact hob o' ho'' i hi
    · have hoeq : o' = o := by simpa using ho''
      rcases href i (hoeq ▸ hi) with ⟨p, hp, hpi⟩
      exact hpi ▸ hpb p hp
  · intro o' ho'
    rcases List.mem_append.mp ho' with ho'' | ho''
    · exact hrefs o' ho''
    · have hoeq : o' = o := by simpa using ho''
      subst hoeq
      exact ⟨hc, hnonempty, href⟩
  · intro o' ho'
    rcases List.mem_append.mp ho' with ho'' | ho''
    · exact htot o' ho''
    · have hoeq : o' = o := by simpa using ho''
      subst hoeq
      exact htotal

lemma WF_createOrder {db : DB} (hwf : WF db) (cid : Nat) (ids : List Nat) (d : Option Nat) :
    WF (createOrder db cid ids d).2 := by
  rcases h : createOrderV db cid ids with e | ⟨o, db2⟩
  · rw [createOrder_err_db h]
    exact hwf
  · rw [createOrder_ok_pair h]
    obtain ⟨hc, hid, hpids, htotal, hdate, hdb2, hlen, hne⟩ := createOrderV_ok h
    have hnd : (db.products.map (fun p => p.id)).Nodup := hwf.1.1
    have href : ∀ i ∈ o.productIds, ∃ p ∈ db.products, p.id = i := by
      intro i hi
      rw [hpids] at hi
      rcases List.mem_map.mp hi with ⟨p, hp, hpi⟩
      exact ⟨p, (mem_resolveProducts.mp hp).1, hpi⟩
    have hnonempty : o.productIds ≠ [] := by
      rw [hpids]
      intro hnil
      have h0 : (resolveProducts db.products ids).length = 0 := by
        have := congrArg List.length hnil
        simpa using this
      rw [hlen] at h0
      exact hne (List.eq_nil_of_length_eq_zero h0)
    have htotal' : o.totalAmount = orderTotal db.products o.productIds := by
      rw [htotal, hpids, orderTotal, resolve_self_ids hnd]
    show WF db2
    rw [hdb2]
    exact WF_saveOrder ⟨hwf.1, hwf.2⟩ hc href hnonempty htotal'

lemma WF_applyAct {db : DB} (hwf : WF db) (a : Act) : WF (applyAct db a) := by
  cases a with
  | createCustomer n e p => exact WF_createCustomer hwf n e p
  | bulkCreateCustomers data => exact WF_bulkCreateCustomers hwf data
  | createProduct n pr s => exact WF_createProduct hwf n pr s
  | createOrder c ps d => exact WF_createOrder hwf c ps d

lemma WF_runActs {acts : List Act} : ∀ {db : DB}, WF db → WF (runActs db acts) := by
  induction acts with
  | nil => intro db hwf; simpa [runActs] using hwf
  | cons a rest ih =>
    intro db hwf
    have h1 : runActs db (a :: rest) = runActs (applyAct db a) rest := by
      simp [runActs]
    rw [h1]
    exact ih (WF_applyAct hwf a)

lemma WF_initDB : WF initDB := by
  refine ⟨⟨?_, ?_, ?_⟩, ?_, ?_, ?_, ?_⟩ <;> simp [initDB, refsOk, totalsOk, emailsOk, productValuesOk]

/-- A database holding one customer and one product, as a pair of earlier
successful create calls leaves it. -/
def dbOneOne : DB :=
  { customers := [{ id := 1, name := "Alice", email := "alice@example.com", phone := none }],
    products := [{ id := 1, name := "Widget", price := 5, stock := 3 }],
    orders := [], nextCustomerId := 2, nextProductId := 2, nextOrderId := 1, now := 0 }

/-- A database holding one customer and two products. -/
def dbTwoProducts : DB :=
  { customers := [{ id := 1, name := "Alice", email := "alice@example.com", phone := none }],
    products := [{ id := 1, name := "Widget", price := 5, stock := 3 },
                 { id := 2, name := "Gadget", price := 7, stock := 4 }],
    orders := [], nextCustomerId := 2, nextProductId := 3, nextOrderId := 1, now := 0 }

/-- A database holding one product and no customers. -/
def dbNoCustomer : DB :=
  { customers := [], products := [{ id := 1, name := "Widget", price := 5, stock := 3 }],
    orders := [], nextCustomerId := 1, nextProductId := 2, nextOrderId := 1, now := 0 }

/-- Claim C3: after any sequence of successful or failed create calls
starting from the empty database, every persisted order references an
existing customer and a non-empty set of existing products, every
total_amount equals the derived recomputation over the current product
table (no mutation even accepts a client-supplied total), customer emails
are globally unique, and every product has positive price and non-negative
stock. -/
theorem invariants_hold_after_any_actions (acts : List Act) :
    Invariants (runActs initDB acts) :=
  (WF_runActs WF_initDB).2

/-- Claim C5: CreateOrder is all-or-nothing.  Every call either returns no
order and leaves the database exactly as it was, or returns one order and
the only change is that this complete row — resolved product set attached
and total recomputed — is appended to the order table; customers and
products are never touched. -/
theorem createOrder_all_or_nothing (db : DB) (cid : Nat) (ids : List Nat) (d : Option Nat) :
    ((createOrder db cid ids d).2.customers = db.customers ∧
     (createOrder db cid ids d).2.products = db.products) ∧
    ((createOrder db cid ids d).1.order = none ∧ (createOrder db cid ids d).2 = db ∨
     ∃ o, (createOrder db cid ids d).1.order = some o ∧
       (createOrder db cid ids d).2 =
         { db with orders := db.orders ++ [o], nextOrderId := db.nextOrderId + 1 } ∧
       o.productIds = (resolveProducts db.products ids).map (fun p => p.id) ∧
       o.totalAmount = ((resolveProducts db.products ids).map (fun p => p.price)).sum) := by
  rcases h : createOrderV db cid ids with e | ⟨o, db2⟩
  · rw [createOrder_err_db h]
    exact ⟨⟨rfl, rfl⟩, Or.inl ⟨rfl, rfl⟩⟩
  · rw [createOrder_ok_pair h]
    obtain ⟨hc, hid, hpids, htotal, hdate, hdb2, hlen, hne⟩ := createOrderV_ok h
    refine ⟨⟨by rw [hdb2]; rfl, by rw [hdb2]; rfl⟩, Or.inr ⟨o, rfl, ?_, hpids, htotal⟩⟩
    rw [hdb2]
    rfl

/-- Claim C9: the orderDate argument of CreateOrder has no effect — result
and state are identical for any two supplied values (omission included),
and any returned order carries the creation-time default date. -/
theorem createOrder_orderDate_no_effect (db : DB) (cid : Nat) (ids : List Nat)
    (d1 d2 : Option Nat) :
    createOrder db cid ids d1 = createOrder db cid ids d2 ∧
    ((createOrder db cid ids d1).1.order.map (fun o => o.orderDate)).getD db.now = db.now := by
  refine ⟨rfl, ?_⟩
  rcases h : createOrderV db cid ids with e | ⟨o, db2⟩
  · rw [createOrder_err_db h]
    rfl
  · rw [createOrder_ok_pair h]
    obtain ⟨hc, hid, hpids, htotal, hdate, hrest⟩ := createOrderV_ok h
    simp [hdate]

/-- Claim C6: the code does let an error escape a mutation instead of
returning it as data.  A blank customer name raises a plain-message
ValidationError whose handler reads message_dict, and that read raises
AttributeError out of the mutation. -/
theorem createCustomer_blank_name_raises :
    createCustomer initDB ("   ") ("ok@example.com") none = (.error .attributeError, initDB) := by
  decide

/-- Claim C7: a blank customer name does not produce the claimed
(field "name") error pair: the mutation escapes with AttributeError and
returns nothing; the database is unchanged (no row persisted). -/
theorem createCustomer_blank_name_no_field_error :
    createCustomer dbOneOne (" ") ("new@example.com") none = (.error .attributeError, dbOneOne) := by
  decide

/-- Claim C10: a CreateOrder call whose product id list contains duplicate
ids that all resolve against a well-keyed product table is rejected — the
resolved count is strictly below the list length — with a validation error
whose missing-id list is empty, and the database is unchanged. -/
theorem createOrder_duplicate_ids_rejected (db : DB) (cid : Nat) (ids : List Nat)
    (d : Option Nat)
    (hnd : (db.products.map (fun p => p.id)).Nodup)
    (hc : ∃ c ∈ db.customers, c.id = cid)
    (hall : ∀ i ∈ ids, ∃ p ∈ db.products, p.id = i)
    (hdup : ¬ ids.Nodup) :
    createOrder db cid ids d =
      ({ order := none,
         errors := some [{ field := "validation",
                           message := OrderVErr.render (.invalidProducts []) }] }, db) := by
  have hne : ids.isEmpty = false := by
    rcases ids with _ | ⟨i, rest⟩
    · exact absurd List.nodup_nil hdup
    · rfl
  rcases hc with ⟨c, hcmem, hcid⟩
  rcases hfind : db.customers.find? (fun c => c.id == cid) with _ | customer
  · have hbeq : (c.id == cid) = true := by
      rw [hcid]
      simp
    have hsome : (db.customers.find? (fun c => c.id == cid)).isSome = true :=
      List.find?_isSome.mpr ⟨c, hcmem, hbeq⟩
    rw [hfind] at hsome
    simp at hsome
  · have hlt := resolve_length_lt_of_dup hnd hall hdup
    have hmiss : missingIds db ids = [] := by
      unfold missingIds
      have hfil : ids.filter (fun i =>
          !((resolveProducts db.products ids).map (fun p => p.id)).contains i) = [] := by
        rw [List.filter_eq_nil_iff]
        intro i hi
        rcases hall i hi with ⟨p, hp, hpi⟩
        have hm : i ∈ (resolveProducts db.products ids).map (fun p => p.id) :=
          List.mem_map.mpr ⟨p, mem_resolveProducts.mpr ⟨hp, hpi ▸ hi⟩, hpi⟩
        have hct : ((resolveProducts db.products ids).map (fun p => p.id)).contains i = true :=
          contains_eq_true_iff.mpr hm
        show ¬((!((resolveProducts db.products ids).map (fun p => p.id)).contains i) = true)
        rw [hct]
        decide
      rw [hfil]
      rfl
    have hv : createOrderV db cid ids = .error (.invalidProducts []) := by
      simp only [createOrderV, hne, hfind]
      rw [if_pos (Nat.ne_of_lt hlt), hmiss]
      rfl
    exact createOrder_err_db hv

/-- Claim C10 witness: the concrete duplicate-id call on a one-customer,
one-product database. -/
theorem createOrder_duplicate_ids_witness :
    ((dbOneOne.products.map (fun p => p.id)).Nodup ∧
     (∃ c ∈ dbOneOne.customers, c.id = 1) ∧
     (∀ i ∈ ([1, 1] : List Nat), ∃ p ∈ dbOneOne.products, p.id = i) ∧
     ¬ ([1, 1] : List Nat).Nodup) ∧
    createOrder dbOneOne 1 [1, 1] none =
      ({ order := none,
         errors := some [{ field := "validation",
                           message := OrderVErr.render (.invalidProducts []) }] }, dbOneOne) :=
  ⟨⟨by decide, by decide, by decide, by decide⟩,
   createOrder_duplicate_ids_rejected dbOneOne 1 [1, 1] none (by decide) (by decide)
     (by decide) (by decide)⟩

/-- Claim C1 (counterexample): the claim as stated fails on two calls in
which every listed product id resolves to an existing product, yet no order
is persisted: a duplicated id list (the distinct resolved count is below
the list length) and the empty list (vacuously all-resolving). -/
theorem createOrder_all_resolving_rejected_cex :
    createOrder dbTwoProducts 1 [2, 2] none =
      ({ order := none,
         errors := some [{ field := "validation",
                           message := "Invalid product IDs: " }] }, dbTwoProducts) ∧
    createOrder dbTwoProducts 1 ([] : List Nat) none =
      ({ order := none,
         errors := some [{ field := "validation",
                           message := "At least one product must be selected." }] },
       dbTwoProducts) :=
  ⟨by decide, by decide⟩

/-- Claim C1 (amended): a CreateOrder call with a resolving customer id and
a non-empty, duplicate-free product id list that all resolves against a
well-keyed product table persists exactly one order, whose total_amount is
the sum of the prices of the referenced products. -/
theorem createOrder_valid_persists_one_order (db : DB) (cid : Nat) (ids : List Nat)
    (d : Option Nat)
    (hnd : (db.products.map (fun p => p.id)).Nodup)
    (hc : ∃ c ∈ db.customers, c.id = cid)
    (hids : ids.Nodup) (hne : ids ≠ [])
    (hall : ∀ i ∈ ids, ∃ p ∈ db.products, p.id = i) :
    ∃ o, createOrder db cid ids d =
        ({ order := some o, errors := none },
         { db with orders := db.orders ++ [o], nextOrderId := db.nextOrderId + 1 }) ∧
      o.totalAmount = (ids.map (priceOf db)).sum := by
  have hlen := resolve_length_eq hnd hids hall
  rcases hc with ⟨c, hcmem, hcid⟩
  have hbeq : (c.id == cid) = true := by
    rw [hcid]
    simp
  rcases hfind : db.customers.find? (fun c => c.id == cid) with _ | customer
  · have hsome : (db.customers.find? (fun c => c.id == cid)).isSome = true :=
      List.find?_isSome.mpr ⟨c, hcmem, hbeq⟩
    rw [hfind] at hsome
    simp at hsome
  · have hempty : ids.isEmpty = false := List.isEmpty_eq_false.mpr hne
    have hv : createOrderV db cid ids =
        .ok (mkOrder db customer ids, saveOrder db (mkOrder db customer ids)) := by
      have h1 : ¬((resolveProducts db.products ids).length ≠ ids.length) :=
        fun hcon => hcon hlen
      simp only [createOrderV, hempty, hfind]
      rw [if_neg h1]
      rfl
    refine ⟨mkOrder db customer ids, ?_, ?_⟩
    · rw [createOrder_ok_pair hv]
      rfl
    · have hsum := resolve_sum_prices hnd hids hall
      calc (mkOrder db customer ids).totalAmount
          = ((resolveProducts db.products ids).map (fun p => p.price)).sum := rfl
        _ = (ids.map (priceOf db)).sum := hsum

/-- Claim C1 witness: the amended theorem evaluated on a one-customer,
two-product database; the persisted total is 5 + 7 = 12. -/
theorem createOrder_valid_persists_witness :
    ((dbTwoProducts.products.map (fun p => p.id)).Nodup ∧
     (∃ c ∈ dbTwoProducts.customers, c.id = 1) ∧
     ([1, 2] : List Nat).Nodup ∧
     ([1, 2] : List Nat) ≠ [] ∧
     (∀ i ∈ ([1, 2] : List Nat), ∃ p ∈ dbTwoProducts.products, p.id = i)) ∧
    ∃ o, createOrder dbTwoProducts 1 [1, 2] none =
        ({ order := some o, errors := none },
         { dbTwoProducts with orders := dbTwoProducts.orders ++ [o],
                              nextOrderId := dbTwoProducts.nextOrderId + 1 }) ∧
      o.totalAmount = (([1, 2] : List Nat).map (priceOf dbTwoProducts)).sum :=
  ⟨⟨by decide, by decide, by decide, by decide, by decide⟩,
   createOrder_valid_persists_one_order dbTwoProducts 1 [1, 2] none (by decide) (by decide)
     (by decide) (by decide) (by decide)⟩

lemma mem_missingIds {db : DB} {ids : List Nat} {x : Nat} :
    x ∈ missingIds db ids ↔ x ∈ ids ∧ ∀ p ∈ db.products, p.id ≠ x := by
  unfold missingIds
  rw [List.mem_dedup, List.mem_filter]
  constructor
  · rintro ⟨hxids, hxf⟩
    refine ⟨hxids, ?_⟩
    intro p hp hpx
    have hxm : x ∈ (resolveProducts db.products ids).map (fun p => p.id) :=
      List.mem_map.mpr ⟨p, mem_resolveProducts.mpr ⟨hp, hpx ▸ hxids⟩, hpx⟩
    have hct := contains_eq_true_iff.mpr hxm
    have hxf' : (!((resolveProducts db.products ids).map (fun p => p.id)).contains x) = true := hxf
    rw [hct] at hxf'
    exact absurd hxf' (by decide)
  · rintro ⟨hxids, hxv⟩
    refine ⟨hxids, ?_⟩
    have hxnot : x ∉ (resolveProducts db.products ids).map (fun p => p.id) := by
      intro hxm
      rcases List.mem_map.mp hxm with ⟨p, hpmem, hpx⟩
      exact hxv p (mem_resolveProducts.mp hpmem).1 hpx
    have hcf : ((resolveProducts db.products ids).map (fun p => p.id)).contains x = false := by
      rcases hb : ((resolveProducts db.products ids).map (fun p => p.id)).contains x with _ | _
      · exact hb
      · exact absurd (contains_eq_true_iff.mp hb) hxnot
    show (!((resolveProducts db.products ids).map (fun p => p.id)).contains x) = true
    rw [hcf]
    decide

/-- Claim C4 (counterexample): a call whose product id list mixes a
resolving id with a non-resolving one but whose customer id does not
resolve is rejected with the customer error, which does not report the
missing product ids. -/
theorem createOrder_mixed_ids_cex :
    createOrder dbNoCustomer 7 [1, 2] none =
      ({ order := none,
         errors := some [{ field := "validation",
                           message := "Invalid customer ID: 7" }] }, dbNoCustomer) ∧
    ("Invalid customer ID: 7" : String) ≠ OrderVErr.render (.invalidProducts [2]) :=
  ⟨by decide, by decide⟩

/-- Claim C4 (amended): when additionally the customer id resolves, a
CreateOrder call over a well-keyed product table whose id list mixes
resolving and non-resolving ids returns the validation error built from
missingIds, whose members are exactly the non-resolving ids of the list,
and the database is unchanged. -/
theorem createOrder_mixed_ids_reports_missing (db : DB) (cid : Nat) (ids : List Nat)
    (d : Option Nat)
    (hnd : (db.products.map (fun p => p.id)).Nodup)
    (hc : ∃ c ∈ db.customers, c.id = cid)
    (hres : ∃ i ∈ ids, ∃ p ∈ db.products, p.id = i)
    (hmiss : ∃ i ∈ ids, ∀ p ∈ db.products, p.id ≠ i) :
    createOrder db cid ids d =
      ({ order := none,
         errors := some [{ field := "validation",
                           message := OrderVErr.render (.invalidProducts (missingIds db ids)) }] },
       db) ∧
    ∀ x, x ∈ missingIds db ids ↔ x ∈ ids ∧ ∀ p ∈ db.products, p.id ≠ x := by
  rcases hmiss with ⟨x0, hx0mem, hx0miss⟩
  have hlt := resolve_length_lt_of_missing hnd hx0mem hx0miss
  have hempty : ids.isEmpty = false :=
    List.isEmpty_eq_false.mpr (List.ne_nil_of_mem hx0mem)
  rcases hc with ⟨c, hcmem, hcid⟩
  have hbeq : (c.id == cid) = true := by
    rw [hcid]
    simp
  rcases hfind : db.customers.find? (fun c => c.id == cid) with _ | customer
  · have hsome : (db.customers.find? (fun c => c.id == cid)).isSome = true :=
      List.find?_isSome.mpr ⟨c, hcmem, hbeq⟩
    rw [hfind] at hsome
    simp at hsome
  · have hv : createOrderV db cid ids = .error (.invalidProducts (missingIds db ids)) := by
      simp only [createOrderV, hempty, hfind]
      rw [if_pos (Nat.ne_of_lt hlt)]
      rfl
    exact ⟨createOrder_err_db hv, fun x => mem_missingIds⟩

/-- Claim C4 witness: the amended theorem evaluated on a one-customer,
one-product database with the mixed list [1, 5]; the reported set is
exactly the singleton 5. -/
theorem createOrder_mixed_ids_witness :
    ((dbOneOne.products.map (fun p => p.id)).Nodup ∧
     (∃ c ∈ dbOneOne.customers, c.id = 1) ∧
     (∃ i ∈ ([1, 5] : List Nat), ∃ p ∈ dbOneOne.products, p.id = i) ∧
     (∃ i ∈ ([1, 5] : List Nat), ∀ p ∈ dbOneOne.products, p.id ≠ i)) ∧
    (createOrder dbOneOne 1 [1, 5] none =
      ({ order := none,
         errors := some [{ field := "validation",
                           message := OrderVErr.render (.invalidProducts (missingIds dbOneOne [1, 5])) }] },
       dbOneOne) ∧
    ∀ x, x ∈ missingIds dbOneOne [1, 5] ↔
      x ∈ ([1, 5] : List Nat) ∧ ∀ p ∈ dbOneOne.products, p.id ≠ x) :=
  ⟨⟨by decide, by decide, by decide, by decide⟩,
   createOrder_mixed_ids_reports_missing dbOneOne 1 [1, 5] none (by decide) (by decide)
     (by decide) (by decide)⟩

/-- Claim C8 (counterexample): creating a second customer with an already
used email returns an error pair whose field is "email" — the uniqueness
violation is caught by full_clean as field validation — not the claimed
"general". -/
theorem createCustomer_duplicate_email_cex :
    createCustomer dbOneOne ("Bob") ("alice@example.com") none =
      (.ok { customer := none, message := none,
             errors := some [{ field := "email",
                               message := "Customer with this email already exists." }] },
       dbOneOne) ∧
    ("email" : String) ≠ "general" :=
  ⟨by decide, by decide⟩

/-- Claim C8 (amended): a CreateCustomer call whose name is not blank,
whose email is well formed but already taken, and whose phone passes
validation returns exactly one error pair, with field "email", returns no
customer, and leaves the number of rows carrying that email unchanged (so
exactly one row exists afterwards when exactly one existed before). -/
theorem createCustomer_duplicate_email_field_email (db : DB) (name email : String)
    (phone : Option String)
    (hblank : isBlank name = false)
    (hv : validEmail email = true)
    (hdup : (db.customers.any (fun c => c.email == email)) = true)
    (hph : phoneOk phone = true) :
    createCustomer db name email phone =
      (.ok { customer := none, message := none,
             errors := some [{ field := "email",
                               message := "Customer with this email already exists." }] }, db) ∧
    (createCustomer db name email phone).2.customers.countP (fun c => c.email == email) =
      db.customers.countP (fun c => c.email == email) := by
  have hname : ¬(name = "") := by
    intro h
    rw [h] at hblank
    exact absurd hblank (by decide)
  have hclean : fullCleanCustomer db name email phone =
      [("email", "Customer with this email already exists.")] := by
    cases phone with
    | none => simp [fullCleanCustomer, hname, hv, hdup]
    | some s =>
        have hs : validPhone s = true := hph
        simp [fullCleanCustomer, hname, hv, hdup, hs]
  have hbody : createCustomerBody db name email phone =
      .error (.dict [("email", "Customer with this email already exists.")]) := by
    simp [createCustomerBody, hblank, hclean]
  have hres : createCustomer db name email phone =
      (.ok { customer := none, message := none,
             errors := some [{ field := "email",
                               message := "Customer with this email already exists." }] }, db) := by
    simp [createCustomer, hbody, VError.messageDict]
  exact ⟨hres, by rw [hres]⟩

/-- Claim C8 witness: the amended theorem evaluated on the one-customer
database, which holds exactly one row with the duplicated email before and
after the failing call. -/
theorem createCustomer_duplicate_email_witness :
    (isBlank ("Bob") = false ∧
     validEmail ("alice@example.com") = true ∧
     (dbOneOne.customers.any (fun c => c.email == "alice@example.com")) = true ∧
     phoneOk none = true ∧
     dbOneOne.customers.countP (fun c => c.email == "alice@example.com") = 1) ∧
    (createCustomer dbOneOne ("Bob") ("alice@example.com") none =
      (.ok { customer := none, message := none,
             errors := some [{ field := "email",
                               message := "Customer with this email already exists." }] },
       dbOneOne) ∧
    (createCustomer dbOneOne ("Bob") ("alice@example.com") none).2.customers.countP
        (fun c => c.email == "alice@example.com") =
      dbOneOne.customers.countP (fun c => c.email == "alice@example.com")) :=
  ⟨⟨by decide, by decide, by decide, by decide, by decide⟩,
   createCustomer_duplicate_email_field_email dbOneOne ("Bob") ("alice@example.com") none
     (by decide) (by decide) (by decide) (by decide)⟩

lemma bulkGo_length (data : List CustomerInput) : ∀ (db : DB) (i : Nat),
    (bulkGo db i data).1.length + (bulkGo db i data).2.1.length = data.length := by
  induction data with
  | nil => intro db i; rfl
  | cons d rest ih =>
    intro db i
    by_cases h : (fullCleanCustomer db d.name d.email d.phone).isEmpty
    · have hr := ih (saveCustomer db (newCustomer db d)) (i + 1)
      simp [bulkGo, h]
      omega
    · have hr := ih db (i + 1)
      simp [bulkGo, h]
      omega

/-- Claim C2: BulkCreateCustomers processes every entry independently.
Every entry ends up either as a created customer or as exactly one error
string (the lengths add up to the input length); a failing entry
contributes the error string built from its 1-based index and its email,
leaves the database untouched, and the remaining entries are still
processed against that same database; and on the concrete three-entry
batch with an invalid second entry, entries one and three are persisted
while entry two appears only in the error list. -/
theorem bulkCreateCustomers_partial_success :
    (∀ (db : DB) (data : List CustomerInput),
      (bulkCreateCustomers db data).1.customers.length +
        (bulkCreateCustomers db data).1.errors.length = data.length) ∧
    (∀ (db : DB) (i : Nat) (d : CustomerInput) (rest : List CustomerInput),
      bulkGo db i (d :: rest) =
        if (fullCleanCustomer db d.name d.email d.phone).isEmpty then
          (newCustomer db d :: (bulkGo (saveCustomer db (newCustomer db d)) (i + 1) rest).1,
           (bulkGo (saveCustomer db (newCustomer db d)) (i + 1) rest).2.1,
           (bulkGo (saveCustomer db (newCustomer db d)) (i + 1) rest).2.2)
        else
          ((bulkGo db (i + 1) rest).1,
           bulkErrorString i d.email
               (dictString (fullCleanCustomer db d.name d.email d.phone)) ::
             (bulkGo db (i + 1) rest).2.1,
           (bulkGo db (i + 1) rest).2.2)) ∧
    bulkCreateCustomers initDB
        [{ name := "Alice", email := "alice@example.com", phone := none },
         { name := "Bob", email := "bad-email", phone := none },
         { name := "Carol", email := "carol@example.com", phone := some "+123" }] =
      ({ customers := [{ id := 1, name := "Alice", email := "alice@example.com", phone := none },
                       { id := 2, name := "Carol", email := "carol@example.com", phone := some "+123" }],
         errors := ["Error on customer #2 (bad-email): email: Enter a valid email address."] },
       { customers := [{ id := 1, name := "Alice", email := "alice@example.com", phone := none },
                       { id := 2, name := "Carol", email := "carol@example.com", phone := some "+123" }],
         products := [], orders := [],
         nextCustomerId := 3, nextProductId := 1, nextOrderId := 1, now := 0 }) := by
  refine ⟨?_, ?_, by decide⟩
  · intro db data
    simpa [bulkCreateCustomers] using bulkGo_length data db 0
  · intro db i d rest
    by_cases h : (fullCleanCustomer db d.name d.email d.phone).isEmpty
    · simp [bulkGo, h]
    · simp [bulkGo, h]
